import Mathlib

/-!
Verification of the hgdb-circt packaging script (`setup.py`).

The script's only logic is `CMakeBuild.build_extension` (lines 25-36): it
ensures the extension output directory exists, then for every name in the
module-level list `binary_names` (line 12) it asserts that
`<script dir>/build/bin/<name>` is a regular file and copies it into the
output directory with `shutil.copy`.  Lines 39-40 read `README.md` (text
mode, no explicit encoding) into `long_description`.

The embedding models the filesystem as an explicit state: a list of existing
directory names plus an association list from `(directory, filename)` paths
to byte contents.  Directory paths are opaque strings; `os.path.join` is
modelled by `pjoin`.  The Python library calls used by the script are
modelled faithfully:

* `os.path.exists` / `os.makedirs` (lines 27-28): `os_makedirs` raises
  `FileExistsError` on an existing directory, which the script's guard makes
  unreachable;
* `os.path.isfile` (line 35): presence of a file entry;
* `shutil.copy(binary, extdir)` (line 36): copies `binary` to
  `(extdir, basename binary)`, raising `SameFileError` when source and
  destination are the same path and `FileNotFoundError` when the source is
  missing (both per `shutil.copyfile`); every call site has already ensured
  that `extdir` is an existing directory;
* line 39 `open(...)` without an `encoding` argument: Python decodes with the
  locale's preferred encoding (modelled as a decoder parameter) and applies
  universal-newline translation to the decoded text.

An exception raised mid-loop leaves the copies already performed in place,
so every operation returns the error (if any) together with the resulting
filesystem state.
-/

/-- File contents: a list of byte values. -/
abbrev Bytes := List Nat

/-- A file path, split as (containing directory, filename). -/
abbrev FPath := String × String

/-- `os.path.join a b` for a non-absolute component `b`. -/
def pjoin (a b : String) : String :=
  if a = "" then b else a ++ "/" ++ b

/-- Line 33: `os.path.join(root_dir, "build", "bin")`, the directory holding
the pre-built binaries, where `root_dir = os.path.dirname(__file__)`. -/
def binDir (root : String) : String :=
  pjoin (pjoin root "build") "bin"

/-- The Python exceptions the modelled library calls can raise. -/
inductive PyError where
  | assertionError
  | fileExistsError
  | fileNotFoundError
  | sameFileError
  deriving DecidableEq

/-- Filesystem state: the set of existing directories and the regular files
with their byte contents.  A later write shadows earlier entries for the same
path, so contents are always observed through `FS.lookupFile`. -/
structure FS where
  dirs : List String
  files : List (FPath × Bytes)

/-- First-match association lookup over file entries. -/
def lookupEntries (p : FPath) : List (FPath × Bytes) → Option Bytes
  | [] => none
  | (q, b) :: rest => if q = p then some b else lookupEntries p rest

/-- The content of the regular file at `p`, if it exists. -/
def FS.lookupFile (fs : FS) (p : FPath) : Option Bytes :=
  lookupEntries p fs.files

/-- `os.path.isfile` (line 35). -/
def FS.isfile (fs : FS) (p : FPath) : Bool :=
  (fs.lookupFile p).isSome

/-- Write content `b` at path `p` (overwriting any existing file there). -/
def FS.setFile (fs : FS) (p : FPath) (b : Bytes) : FS :=
  { fs with files := (p, b) :: fs.files }

/-- `os.makedirs d` (line 28): raises `FileExistsError` if `d` already
exists, otherwise creates it. -/
def os_makedirs (fs : FS) (d : String) : Option PyError × FS :=
  if d ∈ fs.dirs then (some PyError.fileExistsError, fs)
  else (none, { fs with dirs := d :: fs.dirs })

/-- `shutil.copy(src, dstDir)` (line 36) where `dstDir` is an existing
directory, as at the script's only call site: the destination path is
`dstDir/basename(src)`; raises `SameFileError` when that equals `src`
(per `shutil.copyfile`), `FileNotFoundError` when `src` does not exist. -/
def shutil_copy (fs : FS) (src : FPath) (dstDir : String) : Option PyError × FS :=
  if src = (dstDir, src.2) then (some PyError.sameFileError, fs)
  else
    match fs.lookupFile src with
    | some b => (none, fs.setFile (dstDir, src.2) b)
    | none => (some PyError.fileNotFoundError, fs)

/-- Line 12: `binary_names = ["circt-opt", "firtool"]`. -/
def binary_names : List String := ["circt-opt", "firtool"]

/-- Line 31: the local variable `bins = ["hgdb-rtl"]`, assigned and never
read afterwards. -/
def bins : List String := ["hgdb-rtl"]

/-- Lines 34-36: `for binary in binaries: assert os.path.isfile(binary);
shutil.copy(binary, extdir)`, with `binaries` the paths
`(srcDir, name)` for `name` in the given list.  A failed assert raises
`AssertionError` at once, leaving earlier copies in place. -/
def stageLoop (srcDir extdir : String) : List String → FS → Option PyError × FS
  | [], fs => (none, fs)
  | name :: rest, fs =>
    if fs.isfile (srcDir, name) then
      match shutil_copy fs (srcDir, name) extdir with
      | (none, fs1) => stageLoop srcDir extdir rest fs1
      | (some e, fs1) => (some e, fs1)
    else (some PyError.assertionError, fs)

/-- Lines 26-36 of `CMakeBuild.build_extension`, with the binary-name list
as a parameter: ensure `extdir` exists (lines 27-28), then run the
check-and-copy loop (lines 33-36).  `extdir` (line 26) and `root`
(`os.path.dirname(__file__)`, line 32) are inputs. -/
def stageBinaries (names : List String) (root extdir : String) (fs : FS) :
    Option PyError × FS :=
  match (if extdir ∈ fs.dirs then ((none : Option PyError), fs)
         else os_makedirs fs extdir) with
  | (some e, fs1) => (some e, fs1)
  | (none, fs1) => stageLoop (binDir root) extdir names fs1

/-- `CMakeBuild.build_extension` (lines 25-36): the staging step run on the
module-level list `binary_names`. -/
def build_extension (root extdir : String) (fs : FS) : Option PyError × FS :=
  stageBinaries binary_names root extdir fs

/-- The guard of lines 27-28 as a state transformer: the directory part of
`stageBinaries` never fails, so it is equivalent to this pure update. -/
def ensureDir (fs : FS) (d : String) : FS :=
  if d ∈ fs.dirs then fs else { fs with dirs := d :: fs.dirs }

/-- Universal-newline translation performed by Python's text mode: every
`\r\n` pair and every lone `\r` in the decoded text becomes `\n`. -/
def translateNewlines : List Char → List Char
  | [] => []
  | c :: rest =>
    if c = '\r' then
      match rest with
      | d :: rest1 =>
        if d = '\n' then '\n' :: translateNewlines rest1
        else '\n' :: translateNewlines (d :: rest1)
      | [] => ['\n']
    else c :: translateNewlines rest

/-- Strict UTF-8 decoding (Python's `utf-8` codec with the default `strict`
error handler): rejects truncated sequences, stray continuation bytes,
overlong encodings, surrogates and code points above `0x10FFFF`. -/
def utf8Decode : List Nat → Option (List Char)
  | [] => some []
  | b :: rest =>
    if b < 128 then
      (utf8Decode rest).map (fun cs => Char.ofNat b :: cs)
    else if 194 ≤ b ∧ b ≤ 223 then
      match rest with
      | c1 :: rest1 =>
        if 128 ≤ c1 ∧ c1 ≤ 191 then
          (utf8Decode rest1).map (fun cs => Char.ofNat ((b - 192) * 64 + (c1 - 128)) :: cs)
        else none
      | [] => none
    else if 224 ≤ b ∧ b ≤ 239 then
      match rest with
      | c1 :: c2 :: rest2 =>
        if ((b = 224 ∧ 160 ≤ c1 ∧ c1 ≤ 191) ∨
            (225 ≤ b ∧ b ≤ 236 ∧ 128 ≤ c1 ∧ c1 ≤ 191) ∨
            (b = 237 ∧ 128 ≤ c1 ∧ c1 ≤ 159) ∨
            (238 ≤ b ∧ b ≤ 239 ∧ 128 ≤ c1 ∧ c1 ≤ 191)) ∧
            128 ≤ c2 ∧ c2 ≤ 191 then
          (utf8Decode rest2).map
            (fun cs => Char.ofNat ((b - 224) * 4096 + (c1 - 128) * 64 + (c2 - 128)) :: cs)
        else none
      | _ => none
    else if 240 ≤ b ∧ b ≤ 244 then
      match rest with
      | c1 :: c2 :: c3 :: rest3 =>
        if ((b = 240 ∧ 144 ≤ c1 ∧ c1 ≤ 191) ∨
            (241 ≤ b ∧ b ≤ 243 ∧ 128 ≤ c1 ∧ c1 ≤ 191) ∨
            (b = 244 ∧ 128 ≤ c1 ∧ c1 ≤ 143)) ∧
            128 ≤ c2 ∧ c2 ≤ 191 ∧ 128 ≤ c3 ∧ c3 ≤ 191 then
          (utf8Decode rest3).map
            (fun cs => Char.ofNat
              ((b - 240) * 262144 + (c1 - 128) * 4096 + (c2 - 128) * 64 + (c3 - 128)) :: cs)
        else none
      | _ => none
    else none

/-- ISO-8859-1 (`latin-1`) decoding: each byte maps directly to the code
point of the same value.  A possible locale preferred encoding. -/
def latin1Decode : List Nat → Option (List Char)
  | [] => some []
  | b :: rest =>
    if b ≤ 255 then (latin1Decode rest).map (fun cs => Char.ofNat b :: cs)
    else none

/-- Lines 39-40: `long_description = f.read()` for
`f = open(os.path.join(os.path.dirname(__file__), "README.md"))`.  The call
passes no `encoding`, so Python decodes the file with the locale's preferred
encoding (the `decode` parameter) and, being in text mode, applies
universal-newline translation.  A decode failure raises
`UnicodeDecodeError`, modelled as `none`. -/
def long_description (decode : Bytes → Option (List Char)) (readme : Bytes) :
    Option (List Char) :=
  (decode readme).map translateNewlines

/-- Concrete state for witnesses: both binaries present under
`r/build/bin`, destination directory `d` existing and empty. -/
def fsBoth : FS :=
  ⟨["d"], [(("r/build/bin", "circt-opt"), [1]), (("r/build/bin", "firtool"), [2])]⟩

/-- Concrete state for the C1 counterexample: only `circt-opt` present. -/
def fsOne : FS :=
  ⟨["d"], [(("r/build/bin", "circt-opt"), [1])]⟩

/-- Concrete state for witnesses: like `fsBoth` but with a stale file
already at the destination path of `firtool`. -/
def fsOver : FS :=
  ⟨["d"], [(("d", "firtool"), [9]), (("r/build/bin", "circt-opt"), [1]),
           (("r/build/bin", "firtool"), [2])]⟩

example : (build_extension "r" "d" fsBoth).1 = none := by decide

example : (build_extension "r" "d" fsOne).1 = some PyError.assertionError := by decide

example : utf8Decode [233] = none := by decide

example : long_description latin1Decode [233] = some [Char.ofNat 233] := by decide

example : long_description utf8Decode [97, 13, 10, 98] = some ['a', '\n', 'b'] := by decide

/-! ### Basic lemmas about the filesystem model -/

theorem lookupFile_setFile (fs : FS) (p q : FPath) (b : Bytes) :
    (fs.setFile p b).lookupFile q = if p = q then some b else fs.lookupFile q := rfl

theorem setFile_dirs (fs : FS) (p : FPath) (b : Bytes) :
    (fs.setFile p b).dirs = fs.dirs := rfl

theorem ensureDir_lookupFile (fs : FS) (d : String) (p : FPath) :
    (ensureDir fs d).lookupFile p = fs.lookupFile p := by
  unfold ensureDir
  split <;> rfl

theorem ensureDir_dirs_mem (fs : FS) (d : String) : d ∈ (ensureDir fs d).dirs := by
  unfold ensureDir
  split
  · assumption
  · exact List.mem_cons_self d fs.dirs

theorem ensureDir_of_mem (fs : FS) (d : String) (h : d ∈ fs.dirs) :
    ensureDir fs d = fs := by
  unfold ensureDir
  rw [if_pos h]

theorem ensureDir_setFile (fs : FS) (d : String) (p : FPath) (b : Bytes) :
    ensureDir (fs.setFile p b) d = (ensureDir fs d).setFile p b := by
  by_cases hd : d ∈ fs.dirs
  · rw [ensureDir_of_mem _ _ hd, ensureDir_of_mem _ _ (show d ∈ (fs.setFile p b).dirs from hd)]
  · unfold ensureDir FS.setFile
    rw [if_neg hd, if_neg (show ¬ d ∈ ({ fs with files := (p, b) :: fs.files } : FS).dirs from hd)]

theorem stageBinaries_eq (names : List String) (root extdir : String) (fs : FS) :
    stageBinaries names root extdir fs =
      stageLoop (binDir root) extdir names (ensureDir fs extdir) := by
  by_cases hd : extdir ∈ fs.dirs
  · simp [stageBinaries, ensureDir, hd]
  · simp [stageBinaries, ensureDir, os_makedirs, hd]

/-! ### Unfolding lemmas for the check-and-copy loop -/

theorem stageLoop_nil (srcDir extdir : String) (fs : FS) :
    stageLoop srcDir extdir [] fs = (none, fs) := rfl

theorem stageLoop_cons_of_none (srcDir extdir n : String) (rest : List String) (fs : FS)
    (h : fs.lookupFile (srcDir, n) = none) :
    stageLoop srcDir extdir (n :: rest) fs = (some PyError.assertionError, fs) := by
  simp [stageLoop, FS.isfile, h]

theorem stageLoop_cons_of_same (d n : String) (rest : List String) (fs : FS) (b : Bytes)
    (h : fs.lookupFile (d, n) = some b) :
    stageLoop d d (n :: rest) fs = (some PyError.sameFileError, fs) := by
  simp [stageLoop, FS.isfile, h, shutil_copy]

theorem stageLoop_cons_of_some (srcDir extdir n : String) (rest : List String) (fs : FS)
    (b : Bytes) (hne : srcDir ≠ extdir) (h : fs.lookupFile (srcDir, n) = some b) :
    stageLoop srcDir extdir (n :: rest) fs =
      stageLoop srcDir extdir rest (fs.setFile (extdir, n) b) := by
  have hp : ((srcDir, n) : FPath) ≠ (extdir, n) := fun hc => hne (congrArg Prod.fst hc)
  simp [stageLoop, FS.isfile, h, shutil_copy, hp]

/-! ### Structural lemmas about the loop -/

theorem stageLoop_dirs (srcDir extdir : String) (names : List String) :
    ∀ fs : FS, ((stageLoop srcDir extdir names fs).2).dirs = fs.dirs := by
  induction names with
  | nil => intro fs; rfl
  | cons n rest ih =>
    intro fs
    cases h : fs.lookupFile (srcDir, n) with
    | none => rw [stageLoop_cons_of_none srcDir extdir n rest fs h]
    | some b =>
      by_cases hne : srcDir = extdir
      · subst hne
        rw [stageLoop_cons_of_same srcDir n rest fs b h]
      · rw [stageLoop_cons_of_some srcDir extdir n rest fs b hne h]
        exact ih (fs.setFile (extdir, n) b)

theorem stageLoop_frame (srcDir extdir : String) (names : List String) :
    ∀ (fs : FS) (p : FPath), (p.1 = extdir → p.2 ∉ names) →
      ((stageLoop srcDir extdir names fs).2).lookupFile p = fs.lookupFile p := by
  induction names with
  | nil => intro fs p _; rfl
  | cons n rest ih =>
    intro fs p hp
    cases h : fs.lookupFile (srcDir, n) with
    | none => rw [stageLoop_cons_of_none srcDir extdir n rest fs h]
    | some b =>
      by_cases hne : srcDir = extdir
      · subst hne
        rw [stageLoop_cons_of_same srcDir n rest fs b h]
      · rw [stageLoop_cons_of_some srcDir extdir n rest fs b hne h]
        have hpn : ((extdir, n) : FPath) ≠ p := by
          intro hc
          have h1 : p.1 = extdir := by rw [← hc]
          have h2 : p.2 = n := by rw [← hc]
          exact hp h1 (by rw [h2]; exact List.mem_cons_self n rest)
        have hcond : p.1 = extdir → p.2 ∉ rest :=
          fun h1 hm => hp h1 (List.mem_cons_of_mem n hm)
        rw [ih (fs.setFile (extdir, n) b) p hcond, lookupFile_setFile, if_neg hpn]

theorem stageLoop_flag_cases (srcDir extdir : String) (names : List String) :
    ∀ fs : FS, (stageLoop srcDir extdir names fs).1 = none ∨
      (stageLoop srcDir extdir names fs).1 = some PyError.assertionError ∨
      (stageLoop srcDir extdir names fs).1 = some PyError.sameFileError := by
  induction names with
  | nil => intro fs; exact Or.inl rfl
  | cons n rest ih =>
    intro fs
    cases h : fs.lookupFile (srcDir, n) with
    | none =>
      rw [stageLoop_cons_of_none srcDir extdir n rest fs h]
      exact Or.inr (Or.inl rfl)
    | some b =>
      by_cases hne : srcDir = extdir
      · subst hne
        rw [stageLoop_cons_of_same srcDir n rest fs b h]
        exact Or.inr (Or.inr rfl)
      · rw [stageLoop_cons_of_some srcDir extdir n rest fs b hne h]
        exact ih (fs.setFile (extdir, n) b)

theorem stageLoop_self (d : String) (names : List String) (fs : FS) :
    ((stageLoop d d names fs).2) = fs := by
  cases names with
  | nil => rfl
  | cons n rest =>
    cases h : fs.lookupFile (d, n) with
    | none => rw [stageLoop_cons_of_none d d n rest fs h]
    | some b => rw [stageLoop_cons_of_same d n rest fs b h]

theorem stageLoop_ok (srcDir extdir : String) (hne : srcDir ≠ extdir) (names : List String) :
    ∀ fs : FS, (∀ n ∈ names, (fs.lookupFile (srcDir, n)).isSome = true) →
      (stageLoop srcDir extdir names fs).1 = none ∧
      ∀ n ∈ names, ((stageLoop srcDir extdir names fs).2).lookupFile (extdir, n) =
        fs.lookupFile (srcDir, n) := by
  induction names with
  | nil =>
    intro fs _
    exact ⟨rfl, fun n hn => absurd hn (List.not_mem_nil n)⟩
  | cons n0 rest ih =>
    intro fs hpres
    obtain ⟨b, hb⟩ :=
      Option.isSome_iff_exists.mp (hpres n0 (List.mem_cons_self n0 rest))
    rw [stageLoop_cons_of_some srcDir extdir n0 rest fs b hne hb]
    have hsrc : ∀ m : String,
        (fs.setFile (extdir, n0) b).lookupFile (srcDir, m) = fs.lookupFile (srcDir, m) := by
      intro m
      rw [lookupFile_setFile, if_neg]
      intro hc
      exact hne (congrArg Prod.fst hc).symm
    have hpres1 : ∀ m ∈ rest,
        ((fs.setFile (extdir, n0) b).lookupFile (srcDir, m)).isSome = true := by
      intro m hm
      rw [hsrc m]
      exact hpres m (List.mem_cons_of_mem n0 hm)
    obtain ⟨hflag, hcopy⟩ := ih (fs.setFile (extdir, n0) b) hpres1
    refine ⟨hflag, ?_⟩
    intro m hm
    rcases List.mem_cons.mp hm with hm0 | hmr
    · subst hm0
      by_cases hmem : m ∈ rest
      · rw [hcopy m hmem, hsrc m]
      · rw [stageLoop_frame srcDir extdir rest (fs.setFile (extdir, m) b) (extdir, m)
          (fun _ => hmem), lookupFile_setFile, if_pos rfl, hb]
    · rw [hcopy m hmr, hsrc m]

theorem stageLoop_firstMissing (srcDir extdir : String) (hne : srcDir ≠ extdir)
    (m : String) (post : List String) :
    ∀ (pre : List String) (fs : FS),
      (∀ n ∈ pre, (fs.lookupFile (srcDir, n)).isSome = true) →
      fs.lookupFile (srcDir, m) = none →
      (stageLoop srcDir extdir (pre ++ m :: post) fs).1 = some PyError.assertionError ∧
      (∀ p : FPath, (p.1 = extdir → p.2 ∉ pre) →
        ((stageLoop srcDir extdir (pre ++ m :: post) fs).2).lookupFile p = fs.lookupFile p) ∧
      (∀ n ∈ pre, ((stageLoop srcDir extdir (pre ++ m :: post) fs).2).lookupFile (extdir, n) =
        fs.lookupFile (srcDir, n)) := by
  intro pre
  induction pre with
  | nil =>
    intro fs _ hm
    simp only [List.nil_append]
    rw [stageLoop_cons_of_none srcDir extdir m post fs hm]
    exact ⟨rfl, fun p _ => rfl, fun n hn => absurd hn (List.not_mem_nil n)⟩
  | cons n0 pre1 ih =>
    intro fs hpre hm
    obtain ⟨b, hb⟩ :=
      Option.isSome_iff_exists.mp (hpre n0 (List.mem_cons_self n0 pre1))
    simp only [List.cons_append]
    rw [stageLoop_cons_of_some srcDir extdir n0 (pre1 ++ m :: post) fs b hne hb]
    have hsrc : ∀ x : String,
        (fs.setFile (extdir, n0) b).lookupFile (srcDir, x) = fs.lookupFile (srcDir, x) := by
      intro x
      rw [lookupFile_setFile, if_neg]
      intro hc
      exact hne (congrArg Prod.fst hc).symm
    have hpre1 : ∀ n ∈ pre1,
        ((fs.setFile (extdir, n0) b).lookupFile (srcDir, n)).isSome = true := by
      intro n hn
      rw [hsrc n]
      exact hpre n (List.mem_cons_of_mem n0 hn)
    obtain ⟨hflag, hframe, hcopy⟩ :=
      ih (fs.setFile (extdir, n0) b) hpre1 (by rw [hsrc m]; exact hm)
    refine ⟨hflag, ?_, ?_⟩
    · intro p hp
      have hcond : p.1 = extdir → p.2 ∉ pre1 :=
        fun h1 hmem => hp h1 (List.mem_cons_of_mem n0 hmem)
      have hpn : ((extdir, n0) : FPath) ≠ p := by
        intro hc
        have h1 : p.1 = extdir := by rw [← hc]
        have h2 : p.2 = n0 := by rw [← hc]
        exact hp h1 (by rw [h2]; exact List.mem_cons_self n0 pre1)
      rw [hframe p hcond, lookupFile_setFile, if_neg hpn]
    · intro n hn
      rcases List.mem_cons.mp hn with hn0 | hnr
      · subst hn0
        by_cases hmem : n ∈ pre1
        · rw [hcopy n hmem, hsrc n]
        · rw [hframe (extdir, n) (fun _ => hmem), lookupFile_setFile, if_pos rfl, hb]
      · rw [hcopy n hnr, hsrc n]

theorem stageLoop_flag_none_iff (srcDir extdir : String) (hne : srcDir ≠ extdir)
    (names : List String) :
    ∀ fs : FS, (stageLoop srcDir extdir names fs).1 = none ↔
      ∀ n ∈ names, (fs.lookupFile (srcDir, n)).isSome = true := by
  induction names with
  | nil => intro fs; simp [stageLoop_nil]
  | cons n0 rest ih =>
    intro fs
    cases hb : fs.lookupFile (srcDir, n0) with
    | none =>
      rw [stageLoop_cons_of_none srcDir extdir n0 rest fs hb]
      simp [List.forall_mem_cons, hb]
    | some b =>
      rw [stageLoop_cons_of_some srcDir extdir n0 rest fs b hne hb]
      have hsrc : ∀ m : String,
          (fs.setFile (extdir, n0) b).lookupFile (srcDir, m) = fs.lookupFile (srcDir, m) := by
        intro m
        rw [lookupFile_setFile, if_neg]
        intro hc
        exact hne (congrArg Prod.fst hc).symm
      rw [ih (fs.setFile (extdir, n0) b)]
      simp only [hsrc]
      simp [List.forall_mem_cons, hb]

theorem stageLoop_flag_assert_iff (srcDir extdir : String) (hne : srcDir ≠ extdir)
    (names : List String) :
    ∀ fs : FS, (stageLoop srcDir extdir names fs).1 = some PyError.assertionError ↔
      ∃ n ∈ names, (fs.lookupFile (srcDir, n)).isSome = false := by
  induction names with
  | nil => intro fs; simp [stageLoop_nil]
  | cons n0 rest ih =>
    intro fs
    cases hb : fs.lookupFile (srcDir, n0) with
    | none =>
      rw [stageLoop_cons_of_none srcDir extdir n0 rest fs hb]
      simp only [List.mem_cons, exists_eq_or_imp]
      simp [hb]
    | some b =>
      rw [stageLoop_cons_of_some srcDir extdir n0 rest fs b hne hb]
      have hsrc : ∀ m : String,
          (fs.setFile (extdir, n0) b).lookupFile (srcDir, m) = fs.lookupFile (srcDir, m) := by
        intro m
        rw [lookupFile_setFile, if_neg]
        intro hc
        exact hne (congrArg Prod.fst hc).symm
      rw [ih (fs.setFile (extdir, n0) b)]
      simp only [hsrc]
      simp only [List.mem_cons, exists_eq_or_imp]
      simp [hb]

theorem stageLoop_flag_congr (srcDir extdir : String) (names : List String) :
    ∀ fs fs1 : FS,
      (∀ n ∈ names, fs.lookupFile (srcDir, n) = fs1.lookupFile (srcDir, n)) →
      (stageLoop srcDir extdir names fs).1 = (stageLoop srcDir extdir names fs1).1 := by
  induction names with
  | nil => intro fs fs1 _; rfl
  | cons n0 rest ih =>
    intro fs fs1 hagree
    have h0 := hagree n0 (List.mem_cons_self n0 rest)
    cases hb : fs.lookupFile (srcDir, n0) with
    | none =>
      have hb1 : fs1.lookupFile (srcDir, n0) = none := by rw [← h0, hb]
      rw [stageLoop_cons_of_none srcDir extdir n0 rest fs hb,
        stageLoop_cons_of_none srcDir extdir n0 rest fs1 hb1]
    | some b =>
      have hb1 : fs1.lookupFile (srcDir, n0) = some b := by rw [← h0, hb]
      by_cases hne : srcDir = extdir
      · subst hne
        rw [stageLoop_cons_of_same srcDir n0 rest fs b hb,
          stageLoop_cons_of_same srcDir n0 rest fs1 b hb1]
      · rw [stageLoop_cons_of_some srcDir extdir n0 rest fs b hne hb,
          stageLoop_cons_of_some srcDir extdir n0 rest fs1 b hne hb1]
        apply ih
        intro m hm
        rw [lookupFile_setFile, lookupFile_setFile]
        by_cases hc : ((extdir, n0) : FPath) = (srcDir, m)
        · rw [if_pos hc, if_pos hc]
        · rw [if_neg hc, if_neg hc]
          exact hagree m (List.mem_cons_of_mem n0 hm)

theorem translateNewlines_id : ∀ cs : List Char, '\r' ∉ cs → translateNewlines cs = cs := by
  intro cs
  induction cs with
  | nil => intro _; rfl
  | cons c rest ih =>
    intro h
    have hc : ¬ c = '\r' := fun hc => h (by rw [← hc]; exact List.mem_cons_self c rest)
    have hrest : translateNewlines rest = rest := ih (fun hm => h (List.mem_cons_of_mem c hm))
    cases rest with
    | nil => simp [translateNewlines, hc]
    | cons d rest1 =>
      simp only [translateNewlines, if_neg hc]
      rw [show translateNewlines (d :: rest1) = d :: rest1 from hrest]

/-! ### Claim theorems -/

/-- Claim C2: `build_extension` raises an assertion failure if and only if
some name in `binary_names` does not exist as a regular file at
`build/bin/<name>` relative to the script's location; when every such file
exists, the step completes without raising.  Framing hypothesis: the
destination directory differs from `build/bin` (otherwise `shutil.copy`
raises `SameFileError`, which the spec classes as a generic propagated
failure outside this claim's taxonomy). -/
theorem claim_C2 (root extdir : String) (fs : FS) (hne : binDir root ≠ extdir) :
    (((build_extension root extdir fs).1 = none) ↔
      ∀ n ∈ binary_names, fs.isfile (binDir root, n) = true) ∧
    (((build_extension root extdir fs).1 = some PyError.assertionError) ↔
      ∃ n ∈ binary_names, fs.isfile (binDir root, n) = false) := by
  unfold build_extension
  rw [stageBinaries_eq]
  constructor
  · rw [stageLoop_flag_none_iff (binDir root) extdir hne binary_names (ensureDir fs extdir)]
    simp only [ensureDir_lookupFile, FS.isfile]
  · rw [stageLoop_flag_assert_iff (binDir root) extdir hne binary_names (ensureDir fs extdir)]
    simp only [ensureDir_lookupFile, FS.isfile]

/-- Witness for C2 at a concrete input with both binaries present. -/
theorem claim_C2_witness :
    binDir "r" ≠ "d" ∧
    (((build_extension "r" "d" fsBoth).1 = none) ↔
      ∀ n ∈ binary_names, fsBoth.isfile (binDir "r", n) = true) ∧
    (((build_extension "r" "d" fsBoth).1 = some PyError.assertionError) ↔
      ∃ n ∈ binary_names, fsBoth.isfile (binDir "r", n) = false) :=
  ⟨by decide, (claim_C2 "r" "d" fsBoth (by decide)).1, (claim_C2 "r" "d" fsBoth (by decide)).2⟩

/-- Claim C3: when every file named in `binary_names` exists in `build/bin`,
`build_extension` completes and each name exists in the destination
directory with byte content identical to the corresponding source file. -/
theorem claim_C3 (root extdir : String) (fs : FS) (hne : binDir root ≠ extdir)
    (hpres : ∀ n ∈ binary_names, (fs.lookupFile (binDir root, n)).isSome = true) :
    (build_extension root extdir fs).1 = none ∧
    ∀ n ∈ binary_names, ∃ b : Bytes,
      fs.lookupFile (binDir root, n) = some b ∧
      ((build_extension root extdir fs).2).lookupFile (extdir, n) = some b := by
  unfold build_extension
  rw [stageBinaries_eq]
  have hpres1 : ∀ n ∈ binary_names,
      ((ensureDir fs extdir).lookupFile (binDir root, n)).isSome = true := by
    intro n hn
    rw [ensureDir_lookupFile]
    exact hpres n hn
  obtain ⟨hflag, hcopy⟩ :=
    stageLoop_ok (binDir root) extdir hne binary_names (ensureDir fs extdir) hpres1
  refine ⟨hflag, ?_⟩
  intro n hn
  obtain ⟨b, hb⟩ := Option.isSome_iff_exists.mp (hpres n hn)
  refine ⟨b, hb, ?_⟩
  rw [hcopy n hn, ensureDir_lookupFile, hb]

/-- Witness for C3 at a concrete input with both binaries present. -/
theorem claim_C3_witness :
    binDir "r" ≠ "d" ∧
    (∀ n ∈ binary_names, (fsBoth.lookupFile (binDir "r", n)).isSome = true) ∧
    ((build_extension "r" "d" fsBoth).1 = none ∧
      ∀ n ∈ binary_names, ∃ b : Bytes,
        fsBoth.lookupFile (binDir "r", n) = some b ∧
        ((build_extension "r" "d" fsBoth).2).lookupFile ("d", n) = some b) :=
  ⟨by decide, by decide, claim_C3 "r" "d" fsBoth (by decide) (by decide)⟩

/-- Claim C4: the destination directory is created when absent and left
alone (no error, no change) when present; the directory step never raises
`FileExistsError`. -/
theorem claim_C4 (root extdir : String) (fs : FS) :
    extdir ∈ ((build_extension root extdir fs).2).dirs ∧
    (build_extension root extdir fs).1 ≠ some PyError.fileExistsError ∧
    (extdir ∈ fs.dirs → ((build_extension root extdir fs).2).dirs = fs.dirs) := by
  unfold build_extension
  rw [stageBinaries_eq]
  refine ⟨?_, ?_, ?_⟩
  · rw [stageLoop_dirs]
    exact ensureDir_dirs_mem fs extdir
  · rcases stageLoop_flag_cases (binDir root) extdir binary_names (ensureDir fs extdir)
      with h | h | h <;> simp [h]
  · intro hmem
    rw [stageLoop_dirs, ensureDir_of_mem fs extdir hmem]

/-- Witness for C4 at a concrete input whose destination already exists. -/
theorem claim_C4_witness :
    "d" ∈ fsBoth.dirs ∧ ((build_extension "r" "d" fsBoth).2).dirs = fsBoth.dirs :=
  ⟨by decide, (claim_C4 "r" "d" fsBoth).2.2 (by decide)⟩

/-- Claim C5: running `build_extension` twice against the same source files
and destination yields the same destination contents as running it once, and
the re-run against the already-existing destination raises no error. -/
theorem claim_C5 (root extdir : String) (fs : FS) (hne : binDir root ≠ extdir)
    (hpres : ∀ n ∈ binary_names, (fs.lookupFile (binDir root, n)).isSome = true) :
    (build_extension root extdir fs).1 = none ∧
    (build_extension root extdir ((build_extension root extdir fs).2)).1 = none ∧
    ((build_extension root extdir ((build_extension root extdir fs).2)).2).dirs =
      ((build_extension root extdir fs).2).dirs ∧
    ∀ p : FPath,
      ((build_extension root extdir ((build_extension root extdir fs).2)).2).lookupFile p =
        ((build_extension root extdir fs).2).lookupFile p := by
  simp only [build_extension, stageBinaries_eq]
  have hpres1 : ∀ n ∈ binary_names,
      ((ensureDir fs extdir).lookupFile (binDir root, n)).isSome = true := by
    intro n hn
    rw [ensureDir_lookupFile]
    exact hpres n hn
  obtain ⟨hflag1, hcopy1⟩ :=
    stageLoop_ok (binDir root) extdir hne binary_names (ensureDir fs extdir) hpres1
  have hmem1 : extdir ∈
      ((stageLoop (binDir root) extdir binary_names (ensureDir fs extdir)).2).dirs := by
    rw [stageLoop_dirs]
    exact ensureDir_dirs_mem fs extdir
  rw [ensureDir_of_mem _ extdir hmem1]
  have hsrc1 : ∀ n : String,
      ((stageLoop (binDir root) extdir binary_names (ensureDir fs extdir)).2).lookupFile
          (binDir root, n) = fs.lookupFile (binDir root, n) := by
    intro n
    rw [stageLoop_frame (binDir root) extdir binary_names (ensureDir fs extdir)
      (binDir root, n) (fun h => absurd h hne), ensureDir_lookupFile]
  have hpres2 : ∀ n ∈ binary_names,
      (((stageLoop (binDir root) extdir binary_names (ensureDir fs extdir)).2).lookupFile
          (binDir root, n)).isSome = true := by
    intro n hn
    rw [hsrc1 n]
    exact hpres n hn
  obtain ⟨hflag2, hcopy2⟩ := stageLoop_ok (binDir root) extdir hne binary_names
    ((stageLoop (binDir root) extdir binary_names (ensureDir fs extdir)).2) hpres2
  refine ⟨hflag1, hflag2, by rw [stageLoop_dirs], ?_⟩
  intro p
  obtain ⟨p1, p2⟩ := p
  by_cases hp1 : p1 = extdir
  · subst hp1
    by_cases hp2 : p2 ∈ binary_names
    · rw [hcopy2 p2 hp2, hsrc1 p2, hcopy1 p2 hp2, ensureDir_lookupFile]
    · rw [stageLoop_frame (binDir root) p1 binary_names _ (p1, p2) (fun _ => hp2)]
  · rw [stageLoop_frame (binDir root) extdir binary_names _ (p1, p2) (fun h => absurd h hp1)]

/-- Witness for C5 at a concrete input with both binaries present. -/
theorem claim_C5_witness :
    binDir "r" ≠ "d" ∧
    (∀ n ∈ binary_names, (fsBoth.lookupFile (binDir "r", n)).isSome = true) ∧
    ((build_extension "r" "d" fsBoth).1 = none ∧
      (build_extension "r" "d" ((build_extension "r" "d" fsBoth).2)).1 = none ∧
      ((build_extension "r" "d" ((build_extension "r" "d" fsBoth).2)).2).dirs =
        ((build_extension "r" "d" fsBoth).2).dirs ∧
      ∀ p : FPath,
        ((build_extension "r" "d" ((build_extension "r" "d" fsBoth).2)).2).lookupFile p =
          ((build_extension "r" "d" fsBoth).2).lookupFile p) :=
  ⟨by decide, by decide, claim_C5 "r" "d" fsBoth (by decide) (by decide)⟩

/-- Claim C6: with the fixed list `binary_names = ["circt-opt", "firtool"]`,
both files present in `build/bin` and a destination holding no files, after
`build_extension` completes the destination contains exactly those two files
and nothing else. -/
theorem claim_C6 (root extdir : String) (fs : FS) (hne : binDir root ≠ extdir)
    (hpres : ∀ n ∈ binary_names, (fs.lookupFile (binDir root, n)).isSome = true)
    (hempty : ∀ n : String, fs.lookupFile (extdir, n) = none) :
    (build_extension root extdir fs).1 = none ∧
    ∀ n : String,
      (((build_extension root extdir fs).2).lookupFile (extdir, n)).isSome = true ↔
        n ∈ binary_names := by
  unfold build_extension
  rw [stageBinaries_eq]
  have hpres1 : ∀ n ∈ binary_names,
      ((ensureDir fs extdir).lookupFile (binDir root, n)).isSome = true := by
    intro n hn
    rw [ensureDir_lookupFile]
    exact hpres n hn
  obtain ⟨hflag, hcopy⟩ :=
    stageLoop_ok (binDir root) extdir hne binary_names (ensureDir fs extdir) hpres1
  refine ⟨hflag, ?_⟩
  intro n
  by_cases hn : n ∈ binary_names
  · rw [hcopy n hn, ensureDir_lookupFile]
    exact iff_of_true (hpres n hn) hn
  · rw [stageLoop_frame (binDir root) extdir binary_names (ensureDir fs extdir) (extdir, n)
      (fun _ => hn), ensureDir_lookupFile, hempty n]
    exact iff_of_false (by simp) hn

/-- Claim C7: a file already present in the destination under a name from
`binary_names` is overwritten with the source file's content rather than
failing or being skipped. -/
theorem claim_C7 (root extdir : String) (fs : FS) (name : String) (old : Bytes)
    (hne : binDir root ≠ extdir)
    (hpres : ∀ m ∈ binary_names, (fs.lookupFile (binDir root, m)).isSome = true)
    (hmem : name ∈ binary_names)
    (hold : fs.lookupFile (extdir, name) = some old) :
    (build_extension root extdir fs).1 = none ∧
    ((build_extension root extdir fs).2).lookupFile (extdir, name) =
      fs.lookupFile (binDir root, name) := by
  unfold build_extension
  rw [stageBinaries_eq]
  have hpres1 : ∀ m ∈ binary_names,
      ((ensureDir fs extdir).lookupFile (binDir root, m)).isSome = true := by
    intro m hm
    rw [ensureDir_lookupFile]
    exact hpres m hm
  obtain ⟨hflag, hcopy⟩ :=
    stageLoop_ok (binDir root) extdir hne binary_names (ensureDir fs extdir) hpres1
  exact ⟨hflag, by rw [hcopy name hmem, ensureDir_lookupFile]⟩

/-- Witness for C7: `d/firtool` holds stale content `[9]` and ends up with
the source content `[2]`. -/
theorem claim_C7_witness :
    binDir "r" ≠ "d" ∧
    (∀ m ∈ binary_names, (fsOver.lookupFile (binDir "r", m)).isSome = true) ∧
    "firtool" ∈ binary_names ∧
    fsOver.lookupFile ("d", "firtool") = some [9] ∧
    ((build_extension "r" "d" fsOver).1 = none ∧
      ((build_extension "r" "d" fsOver).2).lookupFile ("d", "firtool") =
        fsOver.lookupFile (binDir "r", "firtool")) :=
  ⟨by decide, by decide, by decide, by decide,
    claim_C7 "r" "d" fsOver "firtool" [9] (by decide) (by decide) (by decide) (by decide)⟩

/-- Counterexample to claim C1 as stated: with `circt-opt` present and
`firtool` absent, `build_extension` fails, but only after `circt-opt` has
already been copied into the destination - the destination state is not
unchanged on error. -/
theorem claim_C1_counterexample :
    (build_extension "r" "d" fsOne).1 = some PyError.assertionError ∧
    ((build_extension "r" "d" fsOne).2).lookupFile ("d", "circt-opt") = some [1] ∧
    fsOne.lookupFile ("d", "circt-opt") = none := by
  decide

/-- Claim C1 as amended: existence checks and copies are interleaved per
name, so if some name is absent the step fails with an assertion error at
the first absent name, and every present name earlier in the list has
already been copied into the destination when the failure is raised.  The
destination is unchanged only when the first absent name precedes all
present ones. -/
theorem claim_C1_amended (root extdir : String) (fs : FS) (hne : binDir root ≠ extdir)
    (pre : List String) (m : String) (post : List String)
    (hpre : ∀ n ∈ pre, (fs.lookupFile (binDir root, n)).isSome = true)
    (hm : fs.lookupFile (binDir root, m) = none) :
    (stageBinaries (pre ++ m :: post) root extdir fs).1 = some PyError.assertionError ∧
    ∀ n ∈ pre,
      ((stageBinaries (pre ++ m :: post) root extdir fs).2).lookupFile (extdir, n) =
        fs.lookupFile (binDir root, n) := by
  rw [stageBinaries_eq]
  have hpre1 : ∀ n ∈ pre,
      ((ensureDir fs extdir).lookupFile (binDir root, n)).isSome = true := by
    intro n hn
    rw [ensureDir_lookupFile]
    exact hpre n hn
  have hm1 : (ensureDir fs extdir).lookupFile (binDir root, m) = none := by
    rw [ensureDir_lookupFile]
    exact hm
  obtain ⟨hflag, _, hcopy⟩ :=
    stageLoop_firstMissing (binDir root) extdir hne m post pre (ensureDir fs extdir) hpre1 hm1
  refine ⟨hflag, ?_⟩
  intro n hn
  rw [hcopy n hn, ensureDir_lookupFile]

/-- Witness for the amended C1: names `["circt-opt", "firtool"]` with only
`circt-opt` present fail after copying `circt-opt`. -/
theorem claim_C1_witness :
    binDir "r" ≠ "d" ∧
    (∀ n ∈ ["circt-opt"], (fsOne.lookupFile (binDir "r", n)).isSome = true) ∧
    fsOne.lookupFile (binDir "r", "firtool") = none ∧
    ((stageBinaries (["circt-opt"] ++ "firtool" :: []) "r" "d" fsOne).1 =
        some PyError.assertionError ∧
      ∀ n ∈ ["circt-opt"],
        ((stageBinaries (["circt-opt"] ++ "firtool" :: []) "r" "d" fsOne).2).lookupFile
            ("d", n) = fsOne.lookupFile (binDir "r", n)) :=
  ⟨by decide, by decide, by decide,
    claim_C1_amended "r" "d" fsOne (by decide) ["circt-opt"] "firtool" []
      (by decide) (by decide)⟩

/-- Witness for C6 at a concrete input with an existing empty destination. -/
theorem claim_C6_witness :
    binDir "r" ≠ "d" ∧
    (∀ n ∈ binary_names, (fsBoth.lookupFile (binDir "r", n)).isSome = true) ∧
    (∀ n : String, fsBoth.lookupFile ("d", n) = none) ∧
    ((build_extension "r" "d" fsBoth).1 = none ∧
      ∀ n : String,
        (((build_extension "r" "d" fsBoth).2).lookupFile ("d", n)).isSome = true ↔
          n ∈ binary_names) := by
  have hempty : ∀ n : String, fsBoth.lookupFile ("d", n) = none := by
    intro n
    have h1 : (("r/build/bin", "circt-opt") : FPath) ≠ ("d", n) := by
      intro h
      exact absurd (congrArg Prod.fst h) (show ¬ ("r/build/bin" : String) = "d" by decide)
    have h2 : (("r/build/bin", "firtool") : FPath) ≠ ("d", n) := by
      intro h
      exact absurd (congrArg Prod.fst h) (show ¬ ("r/build/bin" : String) = "d" by decide)
    show lookupEntries ("d", n) fsBoth.files = none
    simp [fsBoth, lookupEntries, h1, h2]
  exact ⟨by decide, by decide, hempty,
    claim_C6 "r" "d" fsBoth (by decide) (by decide) hempty⟩

/-- Claim C9: `build_extension` writes only within the destination
directory - every file outside it, and in particular every source file
under `build/bin`, is unchanged whether the step succeeds or fails - and
its outcome reads only the `build/bin` entries of the binary names: two
states agreeing there produce the same error outcome. -/
theorem claim_C9 (root extdir : String) (fs : FS) :
    (∀ p : FPath, p.1 ≠ extdir →
      ((build_extension root extdir fs).2).lookupFile p = fs.lookupFile p) ∧
    (∀ n : String, ((build_extension root extdir fs).2).lookupFile (binDir root, n) =
      fs.lookupFile (binDir root, n)) ∧
    (∀ fs1 : FS, (∀ n ∈ binary_names,
        fs.lookupFile (binDir root, n) = fs1.lookupFile (binDir root, n)) →
      (build_extension root extdir fs).1 = (build_extension root extdir fs1).1) := by
  refine ⟨?_, ?_, ?_⟩
  · intro p hp
    unfold build_extension
    rw [stageBinaries_eq, stageLoop_frame (binDir root) extdir binary_names
      (ensureDir fs extdir) p (fun h => absurd h hp), ensureDir_lookupFile]
  · intro n
    by_cases hbe : binDir root = extdir
    · unfold build_extension
      rw [stageBinaries_eq, ← hbe,
        stageLoop_self (binDir root) binary_names (ensureDir fs (binDir root)),
        ensureDir_lookupFile]
    · unfold build_extension
      rw [stageBinaries_eq, stageLoop_frame (binDir root) extdir binary_names
        (ensureDir fs extdir) (binDir root, n) (fun h => absurd h hbe), ensureDir_lookupFile]
  · intro fs1 hagree
    unfold build_extension
    rw [stageBinaries_eq, stageBinaries_eq]
    apply stageLoop_flag_congr
    intro n hn
    rw [ensureDir_lookupFile, ensureDir_lookupFile]
    exact hagree n hn

/-- Witness for C9: a path outside the destination is untouched, and a state
with an extra stale destination file gives the same outcome. -/
theorem claim_C9_witness :
    ((("x", "y") : FPath).1 ≠ "d" ∧
      ((build_extension "r" "d" fsBoth).2).lookupFile ("x", "y") =
        fsBoth.lookupFile ("x", "y")) ∧
    ((∀ n ∈ binary_names,
        fsBoth.lookupFile (binDir "r", n) = fsOver.lookupFile (binDir "r", n)) ∧
      (build_extension "r" "d" fsBoth).1 = (build_extension "r" "d" fsOver).1) :=
  ⟨⟨by decide, (claim_C9 "r" "d" fsBoth).1 ("x", "y") (by decide)⟩,
    ⟨by decide, (claim_C9 "r" "d" fsBoth).2.2 fsOver (by decide)⟩⟩

/-- Claim C10: `build_extension` processes exactly the module-level list
`binary_names = ["circt-opt", "firtool"]` in order; the name `"hgdb-rtl"`
from the dead local `bins` is never copied (no destination entry of that
name is written) and never read (adding a file of that name anywhere does
not change the outcome). -/
theorem claim_C10 (root extdir : String) (fs : FS) :
    build_extension root extdir fs = stageBinaries ["circt-opt", "firtool"] root extdir fs ∧
    (∀ p : FPath, p.2 ∈ bins →
      ((build_extension root extdir fs).2).lookupFile p = fs.lookupFile p) ∧
    (∀ (d : String) (b : Bytes) (n : String), n ∈ bins →
      (build_extension root extdir (fs.setFile (d, n) b)).1 =
        (build_extension root extdir fs).1) := by
  refine ⟨rfl, ?_, ?_⟩
  · intro p hp
    have hp2 : p.2 = "hgdb-rtl" := by simpa [bins] using hp
    have hnotin : p.1 = extdir → p.2 ∉ binary_names := by
      intro _
      rw [hp2]
      decide
    unfold build_extension
    rw [stageBinaries_eq, stageLoop_frame (binDir root) extdir binary_names
      (ensureDir fs extdir) p hnotin, ensureDir_lookupFile]
  · intro d b n hn
    have hn1 : n = "hgdb-rtl" := by simpa [bins] using hn
    unfold build_extension
    rw [stageBinaries_eq, stageBinaries_eq, ensureDir_setFile]
    apply stageLoop_flag_congr
    intro m hm
    have hmne : ((d, n) : FPath) ≠ (binDir root, m) := by
      intro hc
      have h1 : m = "hgdb-rtl" := (congrArg Prod.snd hc).symm.trans hn1
      have hall : ∀ x ∈ binary_names, ¬ x = "hgdb-rtl" := by decide
      exact hall m hm h1
    rw [lookupFile_setFile, if_neg hmne]

/-- Witness for C10: no `hgdb-rtl` destination entry appears, and planting a
`hgdb-rtl` file does not change the outcome. -/
theorem claim_C10_witness :
    (("d", "hgdb-rtl") : FPath).2 ∈ bins ∧
    ((build_extension "r" "d" fsBoth).2).lookupFile ("d", "hgdb-rtl") =
      fsBoth.lookupFile ("d", "hgdb-rtl") ∧
    (build_extension "r" "d" (fsBoth.setFile ("z", "hgdb-rtl") [7])).1 =
      (build_extension "r" "d" fsBoth).1 :=
  ⟨by decide, (claim_C10 "r" "d" fsBoth).2.1 ("d", "hgdb-rtl") (by decide),
    (claim_C10 "r" "d" fsBoth).2.2 "z" [7] "hgdb-rtl" (by decide)⟩

/-- Counterexample to claim C8 as stated: `open` on line 39 passes no
encoding, so the decoded text follows the locale preferred encoding - under
a latin-1 locale the byte `0xE9` reads as a character although it is not
valid UTF-8 - and text mode translates newlines, so even under a UTF-8
locale the bytes of `a\r\nb` do not read back as their UTF-8 decoding. -/
theorem claim_C8_counterexample :
    long_description latin1Decode [233] ≠ utf8Decode [233] ∧
    long_description utf8Decode [97, 13, 10, 98] ≠ utf8Decode [97, 13, 10, 98] := by
  decide

/-- Claim C8 as amended: `long_description` is the README bytes decoded with
the locale preferred encoding and with universal newlines translated; it
equals the plain UTF-8 decoding of the file's contents when the locale
encoding is UTF-8 and the decoded text contains no carriage returns. -/
theorem claim_C8_amended (readme : Bytes) (cs : List Char)
    (hdec : utf8Decode readme = some cs) (hcr : '\r' ∉ cs) :
    long_description utf8Decode readme = utf8Decode readme := by
  unfold long_description
  rw [hdec]
  show some (translateNewlines cs) = some cs
  rw [translateNewlines_id cs hcr]

/-- Witness for the amended C8 on the ASCII bytes of `hi`. -/
theorem claim_C8_witness :
    utf8Decode [104, 105] = some ['h', 'i'] ∧ '\r' ∉ (['h', 'i'] : List Char) ∧
    long_description utf8Decode [104, 105] = utf8Decode [104, 105] :=
  ⟨by decide, by decide,
    claim_C8_amended [104, 105] ['h', 'i'] (by decide) (by decide)⟩
